import Mathlib

/-!
Verification of the document-extraction core of the toll-management API
(`src/extractText.ts` and its duplicated copy).

The TypeScript source is shallowly embedded: the filesystem and the HTTP
layer become an explicit environment, the model call becomes an oracle
from request payloads to reply blocks, and `JSON.parse` is modelled by an
executable recursive-descent JSON parser. Bytes are `List Nat`
(each < 256 in the intended use; the claims never depend on the bound).
-/

namespace Toll

/-- The brace characters, named once (they occur as data in the parser). -/
def lbrace : Char := Char.ofNat 123

def rbrace : Char := Char.ofNat 125

/-- JavaScript's `String.prototype.trim` whitespace set (ASCII part plus the
Unicode space separators, NBSP, BOM and line/paragraph separators). -/
def isJsWs (c : Char) : Bool :=
  c = ' ' || c = '\t' || c = '\n' || c = '\r' ||
  c = Char.ofNat 0x0b || c = Char.ofNat 0x0c ||
  c = Char.ofNat 0xa0 || c = Char.ofNat 0x1680 ||
  (0x2000 ≤ c.toNat && c.toNat ≤ 0x200a) ||
  c = Char.ofNat 0x2028 || c = Char.ofNat 0x2029 ||
  c = Char.ofNat 0x202f || c = Char.ofNat 0x205f ||
  c = Char.ofNat 0x3000 || c = Char.ofNat 0xfeff

/-- Drop the maximal whitespace prefix (one side of JS `trim`). -/
def trimLeftChars (cs : List Char) : List Char := cs.dropWhile isJsWs

/-- Drop the maximal whitespace suffix. -/
def trimRightChars (cs : List Char) : List Char :=
  ((cs.reverse).dropWhile isJsWs).reverse

/-- JS `text.trim()` on the character list. -/
def trimChars (cs : List Char) : List Char := trimRightChars (trimLeftChars cs)

/-- JS `text.trim()` on strings. -/
def jsTrim (s : String) : String := String.mk (trimChars s.data)

/-- Basename: the part of the path after the last `/` (Node `path` posix). -/
def basenameChars (cs : List Char) : List Char :=
  (cs.reverse.takeWhile (fun c => c ≠ '/')).reverse

/-- Node `path.extname`: the suffix of the basename from its last `.`;
empty when there is no dot, when the only dot is the leading character
(hidden files), or for the special basename `..`. -/
def extname (p : String) : String :=
  let b := basenameChars p.data
  if b = ['.', '.'] then ""
  else
    let r := b.reverse
    let afterDot := r.takeWhile (fun c => c ≠ '.')
    if afterDot.length = r.length then ""          -- no dot at all
    else if afterDot.length + 1 = r.length then "" -- the dot is the first char
    else String.mk ('.' :: afterDot.reverse)

/-- JS `String.prototype.toLowerCase` (ASCII range; the media-type
extensions the code compares against are ASCII). -/
def jsToLower (s : String) : String := String.mk (s.data.map Char.toLower)

/-- JS `String.prototype.split` with a single-character separator
(always returns at least one piece). -/
def jsSplit (sep : Char) : List Char → List (List Char)
  | [] => [[]]
  | c :: cs =>
    let r := jsSplit sep cs
    if c = sep then [] :: r
    else (c :: r.headD []) :: r.tail

/-- The base64 alphabet. -/
def base64Digit (n : Nat) : Char :=
  ("ABCDEFGHIJKLMNOPQRSTUVWXYZabcdefghijklmnopqrstuvwxyz0123456789+/".data).getD n '!'

/-- Node `Buffer.prototype.toString("base64")` on a byte list. -/
def base64Encode : List Nat → String
  | b1 :: b2 :: b3 :: rest =>
    let n := ((b1 % 256) * 65536 + (b2 % 256) * 256 + (b3 % 256))
    String.mk [base64Digit (n / 262144), base64Digit (n / 4096 % 64),
               base64Digit (n / 64 % 64), base64Digit (n % 64)] ++
    base64Encode rest
  | [b1, b2] =>
    let n := (b1 % 256) * 65536 + (b2 % 256) * 256
    String.mk [base64Digit (n / 262144), base64Digit (n / 4096 % 64),
               base64Digit (n / 64 % 64), '=']
  | [b1] =>
    let n := (b1 % 256) * 65536
    String.mk [base64Digit (n / 262144), base64Digit (n / 4096 % 64), '=', '=']
  | [] => ""

/-- The `{ data, mediaType }` record returned by the fetchers. -/
structure Resource where
  data : String
  mediaType : String
deriving Repr, DecidableEq

/-- An HTTP response as seen by the `https.get` callback: the buffered body
and the `content-type` header (`none` when the header is absent). -/
structure HttpResponse where
  contentType : Option String
  body : List Nat
deriving Repr, DecidableEq

/-- The ambient world: `file p` is `some bytes` when `fs.existsSync p` and
the bytes `fs.readFileSync` returns; `http url` is the response of
`https.get`, `none` when the request errors. -/
structure Env where
  file : String → Option (List Nat)
  http : String → Option HttpResponse

/-- `fetchFileAsBase64` from `src/extractText.ts` (lines 15-46). -/
def fetchFileAsBase64 (env : Env) (filePath : String) : Except String Resource :=
  match env.file filePath with
  | some fileBuffer =>
    let base64 := base64Encode fileBuffer
    let ext := jsToLower (extname filePath)
    let mediaType :=
      if ext = ".pdf" then "application/pdf"
      else if ext = ".png" then "image/png"
      else if ext = ".gif" then "image/gif"
      else if ext = ".webp" then "image/webp"
      else "image/jpeg"
    Except.ok { data := base64, mediaType := mediaType }
  | none =>
    match env.http filePath with
    | some response =>
      let contentType :=
        match response.contentType with
        | some s => if s = "" then "image/jpeg" else s   -- JS `||` treats "" as falsy
        | none => "image/jpeg"
      Except.ok { data := base64Encode response.body,
                  mediaType := String.mk ((jsSplit ';' contentType.data).headD []) }
    | none => Except.error "network error"

/-! ### JSON values and `JSON.parse`

`JSON.parse` is modelled by a recursive-descent parser over the JSON
grammar. Numbers keep their raw source text (the claims never compute
with them). `\uXXXX` escapes in the surrogate range are rejected
(Lean strings hold scalar values only); no claim involves them. -/

/-- JSON values, with object members kept in source order. -/
inductive Json where
  | null
  | bool (b : Bool)
  | num (raw : String)
  | str (s : String)
  | arr (elems : List Json)
  | obj (members : List (String × Json))
deriving Repr

/-- JSON insignificant whitespace (space, tab, line feed, carriage return). -/
def jsonWs (c : Char) : Bool := c = ' ' || c = '\t' || c = '\n' || c = '\r'

def skipJsonWs (cs : List Char) : List Char := cs.dropWhile jsonWs

def hexVal (c : Char) : Option Nat :=
  if '0' ≤ c ∧ c ≤ '9' then some (c.toNat - 48)
  else if 'a' ≤ c ∧ c ≤ 'f' then some (c.toNat - 87)
  else if 'A' ≤ c ∧ c ≤ 'F' then some (c.toNat - 55)
  else none

def parseHex4 (cs : List Char) : Option (Nat × List Char) :=
  match cs with
  | a :: b :: c :: d :: rest =>
    match hexVal a, hexVal b, hexVal c, hexVal d with
    | some x, some y, some z, some w => some (x * 4096 + y * 256 + z * 16 + w, rest)
    | _, _, _, _ => none
  | _ => none

/-- Body of a JSON string literal, after the opening quote; returns the
decoded string and the input after the closing quote. -/
def parseStringBody : Nat → List Char → Option (String × List Char)
  | 0, _ => none
  | _ + 1, [] => none
  | fuel + 1, c :: cs =>
    if c = '"' then some ("", cs)
    else if c = '\\' then
      match cs with
      | [] => none
      | e :: cs2 =>
        let cont : Char → List Char → Option (String × List Char) := fun ch rest =>
          match parseStringBody fuel rest with
          | some (s, r) => some (String.mk (ch :: s.data), r)
          | none => none
        if e = '"' then cont '"' cs2
        else if e = '\\' then cont '\\' cs2
        else if e = '/' then cont '/' cs2
        else if e = 'b' then cont (Char.ofNat 8) cs2
        else if e = 'f' then cont (Char.ofNat 12) cs2
        else if e = 'n' then cont '\n' cs2
        else if e = 'r' then cont '\r' cs2
        else if e = 't' then cont '\t' cs2
        else if e = 'u' then
          match parseHex4 cs2 with
          | some (n, rest) =>
            if 0xd800 ≤ n ∧ n ≤ 0xdfff then none else cont (Char.ofNat n) rest
          | none => none
        else none
    else if c.toNat < 0x20 then none
    else
      match parseStringBody fuel cs with
      | some (s, r) => some (String.mk (c :: s.data), r)
      | none => none

def isJsonDigit (c : Char) : Bool := '0' ≤ c && c ≤ '9'

/-- A JSON number literal: `-? (0 | [1-9][0-9]*) (. [0-9]+)? ([eE][+-]?[0-9]+)?`,
returned as raw text. -/
def parseNumber (cs : List Char) : Option (String × List Char) :=
  let signed : List Char × List Char :=
    match cs with
    | '-' :: t => (['-'], t)
    | _ => ([], cs)
  match signed.2 with
  | [] => none
  | d :: _ =>
    if isJsonDigit d then
      let intPart := signed.2.takeWhile isJsonDigit
      let cs2 := signed.2.dropWhile isJsonDigit
      if d = '0' && intPart.length ≠ 1 then none
      else
        let frac : Option (List Char × List Char) :=
          match cs2 with
          | '.' :: t =>
            let ds := t.takeWhile isJsonDigit
            if ds.isEmpty then none else some ('.' :: ds, t.dropWhile isJsonDigit)
          | _ => some ([], cs2)
        match frac with
        | none => none
        | some (fracPart, cs3) =>
          let expo : Option (List Char × List Char) :=
            match cs3 with
            | e :: t =>
              if e = 'e' || e = 'E' then
                let sgn : List Char × List Char :=
                  match t with
                  | '+' :: u => (['+'], u)
                  | '-' :: u => (['-'], u)
                  | _ => ([], t)
                let ds := sgn.2.takeWhile isJsonDigit
                if ds.isEmpty then none
                else some (e :: (sgn.1 ++ ds), sgn.2.dropWhile isJsonDigit)
              else some ([], cs3)
            | [] => some ([], cs3)
          match expo with
          | none => none
          | some (expPart, cs4) =>
            some (String.mk (signed.1 ++ intPart ++ fracPart ++ expPart), cs4)
    else none

mutual

/-- One JSON value at the head of the input (no leading whitespace). -/
def parseValue : Nat → List Char → Option (Json × List Char)
  | 0, _ => none
  | _ + 1, [] => none
  | fuel + 1, c :: rest =>
    if c = '"' then
      match parseStringBody (rest.length + 1) rest with
      | some (s, r) => some (Json.str s, r)
      | none => none
    else if c = lbrace then
      match skipJsonWs rest with
      | c2 :: r2 =>
        if c2 = rbrace then some (Json.obj [], r2)
        else
          match parseMembers fuel (skipJsonWs rest) with
          | some (ms, r3) =>
            match skipJsonWs r3 with
            | c4 :: r4 => if c4 = rbrace then some (Json.obj ms, r4) else none
            | [] => none
          | none => none
      | [] => none
    else if c = '[' then
      match skipJsonWs rest with
      | c2 :: r2 =>
        if c2 = ']' then some (Json.arr [], r2)
        else
          match parseElems fuel (skipJsonWs rest) with
          | some (vs, r3) =>
            match skipJsonWs r3 with
            | c4 :: r4 => if c4 = ']' then some (Json.arr vs, r4) else none
            | [] => none
          | none => none
      | [] => none
    else if c = 't' then
      match rest with
      | 'r' :: 'u' :: 'e' :: r => some (Json.bool true, r)
      | _ => none
    else if c = 'f' then
      match rest with
      | 'a' :: 'l' :: 's' :: 'e' :: r => some (Json.bool false, r)
      | _ => none
    else if c = 'n' then
      match rest with
      | 'u' :: 'l' :: 'l' :: r => some (Json.null, r)
      | _ => none
    else
      match parseNumber (c :: rest) with
      | some (s, r) => some (Json.num s, r)
      | none => none

/-- One or more comma-separated `"key": value` members. -/
def parseMembers : Nat → List Char → Option (List (String × Json) × List Char)
  | 0, _ => none
  | fuel + 1, cs =>
    match skipJsonWs cs with
    | c :: r =>
      if c = '"' then
        match parseStringBody (r.length + 1) r with
        | some (k, r1) =>
          match skipJsonWs r1 with
          | ':' :: r2 =>
            match parseValue fuel (skipJsonWs r2) with
            | some (v, r3) =>
              match skipJsonWs r3 with
              | ',' :: r4 =>
                match parseMembers fuel r4 with
                | some (ms, r5) => some ((k, v) :: ms, r5)
                | none => none
              | _ => some ([(k, v)], r3)
            | none => none
          | _ => none
        | none => none
      else none
    | [] => none

/-- One or more comma-separated array elements. -/
def parseElems : Nat → List Char → Option (List Json × List Char)
  | 0, _ => none
  | fuel + 1, cs =>
    match parseValue fuel (skipJsonWs cs) with
    | some (v, r) =>
      match skipJsonWs r with
      | ',' :: r2 =>
        match parseElems fuel r2 with
        | some (vs, r3) => some (v :: vs, r3)
        | none => none
      | _ => some ([v], r)
    | none => none

end

/-- `JSON.parse`: one value, surrounded only by whitespace. -/
def jsonParse (s : String) : Option Json :=
  let cs := skipJsonWs s.data
  match parseValue (cs.length + 1) cs with
  | some (v, rest) => if skipJsonWs rest = [] then some v else none
  | none => none

/-! ### The brace-matching JSON recovery

`jsonText.match(/\x7b[\s\S]*\x7d/)` computes the leftmost-longest match of
the regex: the match starts at the first `\x7b` of the string that is
followed by some `\x7d`, and greedy `[\s\S]*` extends it to the last
`\x7d` of the string. `cutAfterLastRBrace` drops the part after the last
`\x7d` (failing when there is none); `codeBraceMatch` anchors at the
first `\x7b`. -/

/-- The longest prefix ending in `\x7d`; `none` when the list has no `\x7d`. -/
def cutAfterLastRBrace : List Char → Option (List Char)
  | [] => none
  | c :: cs =>
    match cutAfterLastRBrace cs with
    | some m => some (c :: m)
    | none => if c = rbrace then some [c] else none

/-- The match of `/\x7b[\s\S]*\x7d/` against `cs`, when one exists. -/
def codeBraceMatch (cs : List Char) : Option (List Char) :=
  match cs.dropWhile (fun c => c ≠ lbrace) with
  | [] => none
  | c :: rest =>
    match cutAfterLastRBrace rest with
    | some m => some (c :: m)
    | none => none

/-- Index of the first occurrence of `a` (spec-side helper). -/
def firstIdxOf (a : Char) : List Char → Option Nat
  | [] => none
  | c :: cs => if c = a then some 0 else (firstIdxOf a cs).map (· + 1)

/-- Index of the last occurrence of `a` (spec-side helper). -/
def lastIdxOf (a : Char) : List Char → Option Nat
  | [] => none
  | c :: cs =>
    match lastIdxOf a cs with
    | some j => some (j + 1)
    | none => if c = a then some 0 else none

/-- The claim's description of the recovery: the substring spanning from the
first occurrence of `\x7b` to the last occurrence of `\x7d`. -/
def specBraceSpan (cs : List Char) : Option (List Char) :=
  match firstIdxOf lbrace cs, lastIdxOf rbrace cs with
  | some i, some j => if i < j then some ((cs.drop i).take (j - i + 1)) else none
  | _, _ => none

/-! ### Replies and reply parsing -/

/-- A reply content block, tagged by kind. -/
inductive ReplyBlock where
  | text (value : String)
  | other (kind : String)
deriving Repr, DecidableEq

/-- The predicate of `response.content.find((block) => block.type === "text")`. -/
def blockIsText : ReplyBlock → Bool
  | ReplyBlock.text _ => true
  | ReplyBlock.other _ => false

/-- The JSON-recovery tail of `extractStructuredData`
(`src/extractText.ts` lines 176-187): trim, brace-match, `JSON.parse`;
any failure yields the empty object. -/
def extractStructuredFromText (text : String) : Json :=
  let jsonText := jsTrim text
  match codeBraceMatch jsonText.data with
  | some m =>
    match jsonParse (String.mk m) with
    | some parsed => parsed
    | none => Json.obj []
  | none => Json.obj []

/-- Reply handling of `extractText` (lines 90-95): the first text block's
value, or `""`. -/
def extractTextFromReply (blocks : List ReplyBlock) : String :=
  match blocks.find? blockIsText with
  | some (ReplyBlock.text t) => t
  | _ => ""

/-- Reply handling of `extractStructuredData` (lines 171-187). -/
def extractStructuredFromReply (blocks : List ReplyBlock) : Json :=
  match blocks.find? blockIsText with
  | some (ReplyBlock.text t) => extractStructuredFromText t
  | _ => Json.obj []

/-! ### Field schema and request payloads -/

/-- The `descriptions` table inside `extractStructuredData` (lines 112-119). -/
def descriptions : List (String × String) :=
  [("invoiceNumber", "Invoice number or ID"),
   ("licensePlate", "License plate number or vehicle registration"),
   ("amountDue", "Amount due (total amount to pay)"),
   ("dueDate", "Due date for payment"),
   ("company", "Company or organization name"),
   ("address", "Address")]

/-- The member names every plain object literal inherits from
`Object.prototype` (ECMA-262, Annex B included): a bracket read
`descriptions[field]` at one of these names finds the inherited function
(or, for `__proto__`, the prototype object itself) instead of `undefined`. -/
def objectPrototypeMembers : List String :=
  ["constructor", "hasOwnProperty", "isPrototypeOf", "propertyIsEnumerable",
   "toLocaleString", "toString", "valueOf", "__defineGetter__",
   "__defineSetter__", "__lookupGetter__", "__lookupSetter__", "__proto__"]

/-- The value of `descriptions[field] || field`: either a string (an own
table entry, or the field name when the property read is falsy), or a
non-string member inherited from `Object.prototype` — functions and
objects are truthy, so the `||` keeps them. -/
inductive FieldDesc where
  | strVal (s : String)
  | protoMember (name : String)
deriving Repr, DecidableEq

/-- `descriptions[field] || field` with JS property-read semantics: own
entries of the literal first, then the prototype chain, and the `||`
fallback to `field` only when the read yields a falsy value. -/
def describeField (field : String) : FieldDesc :=
  match descriptions.lookup field with
  | some d => if d = "" then FieldDesc.strVal field else FieldDesc.strVal d
  | none =>
    if field ∈ objectPrototypeMembers then FieldDesc.protoMember field
    else FieldDesc.strVal field

/-- How `Array.prototype.join` stringifies one mapped element (Node/V8: a
native function prints as `function name() \x7b [native code] \x7d`;
`__proto__` reads as `Object.prototype`, printing as `[object Object]`). -/
def fieldDescToString : FieldDesc → String
  | FieldDesc.strVal s => s
  | FieldDesc.protoMember n =>
    if n = "__proto__" then "[object Object]"
    else "function " ++ n ++ "() \x7b [native code] \x7d"

/-- The default `fields` parameter of `extractStructuredData`. -/
def defaultFields : List String :=
  ["invoiceNumber", "licensePlate", "amountDue", "dueDate"]

/-- `fields.map(...).join(", ")` (lines 111-121). -/
def fieldsDescription (fields : List String) : String :=
  String.intercalate ", " (fields.map (fun f => fieldDescToString (describeField f)))

/-- A request content block. -/
inductive ContentBlock where
  | document (mediaType : String) (data : String)
  | image (mediaType : String) (data : String)
  | text (value : String)
deriving Repr, DecidableEq

/-- The `messageContent` array built by `extractText` (lines 51-76). -/
def textModeContent (r : Resource) : List ContentBlock :=
  (if r.mediaType = "application/pdf" then
    [ContentBlock.document r.mediaType r.data]
  else
    [ContentBlock.image r.mediaType r.data]) ++
  [ContentBlock.text
    "Please extract all text from this document and return it in markdown format."]

/-- The instruction text of `extractStructuredData` (lines 147-157). -/
def structuredPromptText (fields : List String) : String :=
  "Extract the following information from this document and return ONLY a JSON object (no markdown, no extra text): "
  ++ fieldsDescription fields ++
  ".\n\nReturn as JSON like this example:\n\x7b\n  \"invoiceNumber\": \"value\",\n  \"licensePlate\": \"value\",\n  \"amountDue\": \"value\",\n  \"dueDate\": \"value\"\n\x7d\n\nIf a field is not found, use null."

/-- The `messageContent` array built by `extractStructuredData` (lines 123-158). -/
def structuredModeContent (r : Resource) (fields : List String) : List ContentBlock :=
  (if r.mediaType = "application/pdf" then
    [ContentBlock.document r.mediaType r.data]
  else
    [ContentBlock.image r.mediaType r.data]) ++
  [ContentBlock.text (structuredPromptText fields)]

/-! ### The two public operations

The model call is an oracle from the request content to the reply's
content blocks. -/

/-- `extractText` from `src/extractText.ts`. -/
def extractText (env : Env) (model : List ContentBlock → List ReplyBlock)
    (filePath : String) : Except String String :=
  match fetchFileAsBase64 env filePath with
  | Except.ok r => Except.ok (extractTextFromReply (model (textModeContent r)))
  | Except.error e => Except.error e

/-- `extractStructuredData` from `src/extractText.ts`. -/
def extractStructuredData (env : Env) (model : List ContentBlock → List ReplyBlock)
    (filePath : String) (fields : List String := defaultFields) : Except String Json :=
  match fetchFileAsBase64 env filePath with
  | Except.ok r =>
    Except.ok (extractStructuredFromReply (model (structuredModeContent r fields)))
  | Except.error e => Except.error e

/-! ### The duplicated copy (`src/unnamed/part_001`)

The unnamed file repeats the pipeline with `fetchImageAsBase64` (whose
media-type chain has no `.pdf` case), image-only content blocks, and
prompts that say "image" instead of "document". Its reply handling is
textually identical, re-declared here as the file re-declares it. -/

namespace Dup

/-- `fetchImageAsBase64` from the unnamed duplicate (lines 15-45). -/
def fetchImageAsBase64 (env : Env) (imagePath : String) : Except String Resource :=
  match env.file imagePath with
  | some imageBuffer =>
    let base64 := base64Encode imageBuffer
    let ext := jsToLower (extname imagePath)
    let mediaType :=
      if ext = ".png" then "image/png"
      else if ext = ".gif" then "image/gif"
      else if ext = ".webp" then "image/webp"
      else "image/jpeg"
    Except.ok { data := base64, mediaType := mediaType }
  | none =>
    match env.http imagePath with
    | some response =>
      let contentType :=
        match response.contentType with
        | some s => if s = "" then "image/jpeg" else s
        | none => "image/jpeg"
      Except.ok { data := base64Encode response.body,
                  mediaType := String.mk ((jsSplit ';' contentType.data).headD []) }
    | none => Except.error "network error"

/-- The duplicate's copy of the text-reply handling (lines 74-80). -/
def extractTextFromReply (blocks : List ReplyBlock) : String :=
  match blocks.find? blockIsText with
  | some (ReplyBlock.text t) => t
  | _ => ""

/-- The duplicate's copy of the JSON recovery (lines 147-158). -/
def extractStructuredFromText (text : String) : Json :=
  let jsonText := jsTrim text
  match codeBraceMatch jsonText.data with
  | some m =>
    match jsonParse (String.mk m) with
    | some parsed => parsed
    | none => Json.obj []
  | none => Json.obj []

/-- The duplicate's reply handling for structured mode (lines 142-158). -/
def extractStructuredFromReply (blocks : List ReplyBlock) : Json :=
  match blocks.find? blockIsText with
  | some (ReplyBlock.text t) => extractStructuredFromText t
  | _ => Json.obj []

/-- The duplicate's `messageContent` for text mode (lines 56-69): always an
image block. -/
def textModeContent (r : Resource) : List ContentBlock :=
  [ContentBlock.image r.mediaType r.data,
   ContentBlock.text
     "Please extract all text from this image and return it in markdown format."]

/-- The duplicate's structured instruction text (lines 125-135). -/
def structuredPromptText (fields : List String) : String :=
  "Extract the following information from this image and return ONLY a JSON object (no markdown, no extra text): "
  ++ fieldsDescription fields ++
  ".\n\nReturn as JSON like this example:\n\x7b\n  \"invoiceNumber\": \"value\",\n  \"licensePlate\": \"value\",\n  \"amountDue\": \"value\",\n  \"dueDate\": \"value\"\n\x7d\n\nIf a field is not found, use null."

/-- The duplicate's `messageContent` for structured mode (lines 114-137). -/
def structuredModeContent (r : Resource) (fields : List String) : List ContentBlock :=
  [ContentBlock.image r.mediaType r.data,
   ContentBlock.text (structuredPromptText fields)]

/-- `extractText` from the unnamed duplicate. -/
def extractText (env : Env) (model : List ContentBlock → List ReplyBlock)
    (imagePath : String) : Except String String :=
  match fetchImageAsBase64 env imagePath with
  | Except.ok r => Except.ok (extractTextFromReply (model (textModeContent r)))
  | Except.error e => Except.error e

/-- `extractStructuredData` from the unnamed duplicate. -/
def extractStructuredData (env : Env) (model : List ContentBlock → List ReplyBlock)
    (imagePath : String) (fields : List String := defaultFields) : Except String Json :=
  match fetchImageAsBase64 env imagePath with
  | Except.ok r =>
    Except.ok (extractStructuredFromReply (model (structuredModeContent r fields)))
  | Except.error e => Except.error e

end Dup

/-! ### Spec-side definitions used to state the claims -/

/-- The media-type table as the spec states it for local files. -/
def specLocalMediaType (ext : String) : String :=
  if ext = ".pdf" then "application/pdf"
  else if ext = ".png" then "image/png"
  else if ext = ".gif" then "image/gif"
  else if ext = ".webp" then "image/webp"
  else "image/jpeg"

/-- The spec's remote media type: the `Content-Type` value truncated at the
first `;`, `image/jpeg` when the header is absent. -/
def specRemoteMediaType (contentType : Option String) : String :=
  match contentType with
  | some s => String.mk (s.data.takeWhile (fun c => c ≠ ';'))
  | none => "image/jpeg"

/-- Spec-side scan for the first text block's value. -/
def firstTextValue : List ReplyBlock → Option String
  | [] => none
  | ReplyBlock.text t :: _ => some t
  | ReplyBlock.other _ :: bs => firstTextValue bs

/-- Top-level keys of a JSON value (empty for non-objects). -/
def jsonKeys : Json → List String
  | Json.obj members => members.map Prod.fst
  | _ => []

/-- The media type carried by a request block (`none` for text blocks). -/
def blockMediaType : ContentBlock → Option String
  | ContentBlock.document mt _ => some mt
  | ContentBlock.image mt _ => some mt
  | ContentBlock.text _ => none

/-! ### Helper lemmas -/

/-- `cutAfterLastRBrace` is truncation after the last `\x7d`. -/
theorem cutAfterLastRBrace_eq (cs : List Char) :
    cutAfterLastRBrace cs = (lastIdxOf rbrace cs).map (fun j => cs.take (j + 1)) := by
  induction cs with
  | nil => rfl
  | cons c cs ih =>
    simp only [cutAfterLastRBrace, lastIdxOf, ih]
    cases h : lastIdxOf rbrace cs with
    | some j => simp [List.take_succ_cons]
    | none =>
      by_cases hc : c = rbrace <;> simp [hc]

/-- No `\x7d` at all means `lastIdxOf` fails. -/
theorem lastIdxOf_eq_none_iff (a : Char) (cs : List Char) :
    lastIdxOf a cs = none ↔ a ∉ cs := by
  induction cs with
  | nil => simp [lastIdxOf]
  | cons c cs ih =>
    simp only [lastIdxOf, List.mem_cons]
    cases h : lastIdxOf a cs with
    | some j =>
      have hmem : a ∈ cs := by
        by_contra hm
        rw [ih.mpr hm] at h
        cases h
      simp [hmem]
    | none =>
      have hnm : a ∉ cs := ih.mp h
      by_cases hc : c = a
      · simp [hc]
      · have hac : ¬ a = c := fun hh => hc hh.symm
        simp [hc, hnm, hac]

/-- The regex model agrees with the claim's first-`\x7b`-to-last-`\x7d` span. -/
theorem codeBraceMatch_eq_specBraceSpan (cs : List Char) :
    codeBraceMatch cs = specBraceSpan cs := by
  induction cs with
  | nil => rfl
  | cons c cs ih =>
    by_cases hc : c = lbrace
    · subst hc
      simp only [codeBraceMatch, specBraceSpan, firstIdxOf, lastIdxOf, List.dropWhile_cons,
        if_pos rfl, cutAfterLastRBrace_eq]
      have hbr : ¬ (lbrace = rbrace) := by decide
      simp only [if_pos rfl, ne_eq, not_true_eq_false, ite_false, reduceIte]
      cases h : lastIdxOf rbrace cs with
      | some j => simp [h, List.take_succ_cons]
      | none => simp [h, hbr]
    · have hcode : codeBraceMatch (c :: cs) = codeBraceMatch cs := by
        simp only [codeBraceMatch, List.dropWhile_cons]
        simp [hc]
      rw [hcode, ih]
      simp only [specBraceSpan, firstIdxOf, lastIdxOf, if_neg hc]
      cases hf : firstIdxOf lbrace cs with
      | none => cases hl : lastIdxOf rbrace cs with
        | none => by_cases hcr : c = rbrace <;> simp [hcr]
        | some j => simp
      | some i =>
        cases hl : lastIdxOf rbrace cs with
        | none =>
          by_cases hcr : c = rbrace <;> simp [hcr]
        | some j =>
          simp only [Option.map_some]
          by_cases hij : i < j
          · have hij2 : i + 1 < j + 1 := by omega
            have harith : j + 1 - (i + 1) = j - i := by omega
            simp [hij, hij2, harith, List.drop_succ_cons]
          · have hij2 : ¬ (i + 1 < j + 1) := by omega
            simp [hij, hij2]

/-- The first piece of a JS split is the prefix before the first separator. -/
theorem jsSplit_headD (sep : Char) (cs : List Char) :
    (jsSplit sep cs).headD [] = cs.takeWhile (fun c => c ≠ sep) := by
  induction cs with
  | nil => rfl
  | cons c cs ih =>
    simp only [jsSplit, List.takeWhile_cons]
    by_cases hc : c = sep
    · simp [hc]
    · simpa [hc, ne_eq, decide_not] using ih

/-- Dropping a satisfying prefix continues into the remainder. -/
theorem dropWhile_append_of_forall (p : Char → Bool) (a b : List Char)
    (h : ∀ c ∈ a, p c = true) : (a ++ b).dropWhile p = b.dropWhile p := by
  induction a with
  | nil => rfl
  | cons c a ih =>
    simp only [List.cons_append, List.dropWhile_cons, h c (by simp)]
    exact ih (fun x hx => h x (by simp [hx]))

/-- When the head survives `dropWhile`, an appended tail is untouched. -/
theorem dropWhile_append_of_ne_nil (p : Char → Bool) (a b : List Char)
    (h : a.dropWhile p ≠ []) : (a ++ b).dropWhile p = a.dropWhile p ++ b := by
  induction a with
  | nil => exact absurd rfl h
  | cons c a ih =>
    by_cases hc : p c
    · simp only [List.cons_append, List.dropWhile_cons, hc, if_true]
      simp only [List.dropWhile_cons, hc, if_true] at h
      exact ih h
    · simp [List.dropWhile_cons, hc]

/-- A trailing all-whitespace block does not change the right trim. -/
theorem trimRightChars_append (x b : List Char) (h : ∀ c ∈ b, isJsWs c = true) :
    trimRightChars (x ++ b) = trimRightChars x := by
  unfold trimRightChars
  rw [List.reverse_append,
    dropWhile_append_of_forall isJsWs b.reverse x.reverse
      (fun c hc => h c (List.mem_reverse.mp hc))]

/-- JS `trim` absorbs any surrounding whitespace. -/
theorem trimChars_ws_invariant (s w1 w2 : List Char)
    (h1 : ∀ c ∈ w1, isJsWs c = true) (h2 : ∀ c ∈ w2, isJsWs c = true) :
    trimChars (w1 ++ s ++ w2) = trimChars s := by
  unfold trimChars trimLeftChars
  rw [List.append_assoc, dropWhile_append_of_forall isJsWs w1 (s ++ w2) h1]
  by_cases hs : s.dropWhile isJsWs = []
  · have hsw : ∀ c ∈ s, isJsWs c = true := List.dropWhile_eq_nil_iff.mp hs
    have hw2 : w2.dropWhile isJsWs = [] := List.dropWhile_eq_nil_iff.mpr h2
    rw [dropWhile_append_of_forall isJsWs s w2 hsw, hs, hw2]
  · rw [dropWhile_append_of_ne_nil isJsWs s w2 hs, trimRightChars_append _ _ h2]

/-- Unfolding equation for `extractStructuredFromText`. -/
theorem extractStructuredFromText_eq (t : String) :
    extractStructuredFromText t =
      (match codeBraceMatch (jsTrim t).data with
       | some m =>
         match jsonParse (String.mk m) with
         | some parsed => parsed
         | none => Json.obj []
       | none => Json.obj []) := rfl

/-! ### Concrete fixtures -/

/-- The spec's fenced-reply test text: valid JSON surrounded by prose and a
markdown code fence. -/
def fencedReply : String :=
  "Here is the result:\n```json\n\x7b\"invoiceNumber\":\"INV-001\",\"amountDue\":\"42.50\"\x7d\n```\nLet me know if you need more."

/-- A reply holding two separate JSON-looking fragments. -/
def twoFragments : String := "\x7b\"a\":\"1\"\x7d and \x7b\"b\":\"2\"\x7d"

/-- A world with one local `.PDF` file. -/
def envA : Env :=
  { file := fun p => if p = "scan.PDF" then some [1, 2, 3] else none,
    http := fun _ => none }

/-- The same path bound to different bytes. -/
def envB : Env :=
  { file := fun p => if p = "scan.PDF" then some [255] else none,
    http := fun _ => none }

/-- A world with one local `.pdf` file. -/
def envPdfDoc : Env :=
  { file := fun p => if p = "invoice.pdf" then some [37, 80, 68, 70] else none,
    http := fun _ => none }

/-- A world with one local `.png` file. -/
def envPng : Env :=
  { file := fun p => if p = "photo.png" then some [9] else none,
    http := fun _ => none }

/-! ## The claims -/

/-- C1: for every local path whose file exists, `fetchFileAsBase64` succeeds
and reports exactly the media type the claim's extension table assigns to
the case-lowered extension (`.pdf`, `.png`, `.gif`, `.webp`, default
`image/jpeg`), independently of the file's content. -/
theorem local_fetch_mediaType (env env2 : Env) (p : String) (b b2 : List Nat)
    (h : env.file p = some b) (h2 : env2.file p = some b2) :
    ∃ r r2 : Resource,
      fetchFileAsBase64 env p = Except.ok r ∧
      fetchFileAsBase64 env2 p = Except.ok r2 ∧
      r.mediaType = specLocalMediaType (jsToLower (extname p)) ∧
      r2.mediaType = r.mediaType := by
  unfold fetchFileAsBase64
  rw [h, h2]
  exact ⟨_, _, rfl, rfl, rfl, rfl⟩

/-- Witness for C1: a concrete `.PDF` path under two different contents. -/
theorem local_fetch_mediaType_witness :
    ∃ r r2 : Resource,
      fetchFileAsBase64 envA "scan.PDF" = Except.ok r ∧
      fetchFileAsBase64 envB "scan.PDF" = Except.ok r2 ∧
      r.mediaType = specLocalMediaType (jsToLower (extname "scan.PDF")) ∧
      r2.mediaType = r.mediaType :=
  local_fetch_mediaType envA envB "scan.PDF" [1, 2, 3] [255] rfl rfl

/-- C2 counterexample: on a local `.pdf` file the two fetchers return
different media types, so the two extraction cores are not extensionally
equal. -/
theorem dup_fetch_counterexample :
    (fetchFileAsBase64 envPdfDoc "invoice.pdf").toOption.map Resource.mediaType
      = some "application/pdf" ∧
    (Dup.fetchImageAsBase64 envPdfDoc "invoice.pdf").toOption.map Resource.mediaType
      = some "image/jpeg" ∧
    fetchFileAsBase64 envPdfDoc "invoice.pdf"
      ≠ Dup.fetchImageAsBase64 envPdfDoc "invoice.pdf" := by
  refine ⟨rfl, rfl, fun hEq => ?_⟩
  have h1 : (fetchFileAsBase64 envPdfDoc "invoice.pdf").toOption.map Resource.mediaType
      = some "application/pdf" := rfl
  have h2 : (Dup.fetchImageAsBase64 envPdfDoc "invoice.pdf").toOption.map Resource.mediaType
      = some "image/jpeg" := rfl
  rw [hEq] at h1
  exact absurd (h1.symm.trans h2) (by decide)

/-- C2 amended: the two copies agree on every reply (their reply-parsing
functions are extensionally equal), and their fetchers agree on every
identifier that is remote or whose lowered extension is not `.pdf`; they
differ exactly on existing local `.pdf` files. -/
theorem dup_agreement (env : Env) (p : String)
    (h : jsToLower (extname p) ≠ ".pdf" ∨ env.file p = none) :
    Dup.fetchImageAsBase64 env p = fetchFileAsBase64 env p ∧
    (∀ blocks, Dup.extractTextFromReply blocks = extractTextFromReply blocks) ∧
    (∀ t, Dup.extractStructuredFromText t = extractStructuredFromText t) ∧
    (∀ blocks, Dup.extractStructuredFromReply blocks = extractStructuredFromReply blocks) := by
  refine ⟨?_, fun _ => rfl, fun _ => rfl, fun _ => rfl⟩
  unfold fetchFileAsBase64 Dup.fetchImageAsBase64
  cases hf : env.file p with
  | none => rfl
  | some b =>
    rcases h with h | h
    · simp [h]
    · rw [hf] at h; cases h

/-- Witness for C2's amended statement at a concrete `.png` file. -/
theorem dup_agreement_witness :
    Dup.fetchImageAsBase64 envPng "photo.png" = fetchFileAsBase64 envPng "photo.png" ∧
    Dup.extractStructuredFromText "no json here" = extractStructuredFromText "no json here" :=
  ⟨(dup_agreement envPng "photo.png" (Or.inl (by decide))).1,
   (dup_agreement envPng "photo.png" (Or.inl (by decide))).2.2.1 "no json here"⟩

/-- C3: the JSON recovery selects exactly the substring from the first
`\x7b` to the last `\x7d` of the trimmed reply text and parses it; it
recovers the invoice object from the fenced reply, and on a reply with two
brace-delimited fragments it takes the whole first-to-last span as the one
candidate (which fails to parse, yielding the empty object). -/
theorem structured_recovery_span (t : String) :
    extractStructuredFromText t =
      (match specBraceSpan (jsTrim t).data with
       | some m => (jsonParse (String.mk m)).getD (Json.obj [])
       | none => Json.obj []) ∧
    extractStructuredFromText fencedReply =
      Json.obj [("invoiceNumber", Json.str "INV-001"), ("amountDue", Json.str "42.50")] ∧
    codeBraceMatch (jsTrim twoFragments).data = some twoFragments.data ∧
    extractStructuredFromText twoFragments = Json.obj [] := by
  refine ⟨?_, rfl, rfl, rfl⟩
  rw [← codeBraceMatch_eq_specBraceSpan]
  show (match codeBraceMatch (jsTrim t).data with
        | some m =>
          match jsonParse (String.mk m) with
          | some parsed => parsed
          | none => Json.obj []
        | none => Json.obj []) =
      (match codeBraceMatch (jsTrim t).data with
        | some m => (jsonParse (String.mk m)).getD (Json.obj [])
        | none => Json.obj [])
  cases codeBraceMatch (jsTrim t).data with
  | none => rfl
  | some m =>
    show (match jsonParse (String.mk m) with
          | some parsed => parsed
          | none => Json.obj []) = (jsonParse (String.mk m)).getD (Json.obj [])
    cases jsonParse (String.mk m) <;> rfl

/-- C4: structured extraction never propagates a failure — a reply with no
text block, a text with no brace-delimited candidate, or a candidate that
fails to parse all yield the empty object, and text extraction yields `""`
on a reply with no text block. -/
theorem structured_best_effort (blocks : List ReplyBlock) (t : String) :
    (blocks.find? blockIsText = none →
      extractStructuredFromReply blocks = Json.obj [] ∧ extractTextFromReply blocks = "") ∧
    (codeBraceMatch (jsTrim t).data = none → extractStructuredFromText t = Json.obj []) ∧
    (∀ m, codeBraceMatch (jsTrim t).data = some m → jsonParse (String.mk m) = none →
      extractStructuredFromText t = Json.obj []) := by
  refine ⟨fun h => ?_, fun h => ?_, fun m hm hp => ?_⟩
  · unfold extractStructuredFromReply extractTextFromReply
    rw [h]
    exact ⟨rfl, rfl⟩
  · rw [extractStructuredFromText_eq, h]
  · rw [extractStructuredFromText_eq, hm]
    show (match jsonParse (String.mk m) with
          | some parsed => parsed
          | none => Json.obj []) = Json.obj []
    rw [hp]

/-- Witness for C4: a text-free reply, a braceless reply text, and an
unparsable brace span. -/
theorem structured_best_effort_witness :
    extractStructuredFromReply [ReplyBlock.other "tool_use"] = Json.obj [] ∧
    extractTextFromReply [ReplyBlock.other "tool_use"] = "" ∧
    extractStructuredFromText "I could not read this document." = Json.obj [] ∧
    extractStructuredFromText "\x7boops\x7d" = Json.obj [] :=
  ⟨((structured_best_effort [ReplyBlock.other "tool_use"] "").1 rfl).1,
   ((structured_best_effort [ReplyBlock.other "tool_use"] "").1 rfl).2,
   (structured_best_effort [] "I could not read this document.").2.1 rfl,
   (structured_best_effort [] "\x7boops\x7d").2.2 "\x7boops\x7d".data rfl rfl⟩

/-- C5: when the recovered candidate parses, the parsed value is returned
as-is — the result's keys are exactly the parsed object's keys — and the
full `extractStructuredData` pipeline returns it unchanged for any
requested field list. -/
theorem structured_pass_through (blocks : List ReplyBlock) (t : String)
    (m : List Char) (v : Json)
    (ht : blocks.find? blockIsText = some (ReplyBlock.text t))
    (hm : codeBraceMatch (jsTrim t).data = some m)
    (hp : jsonParse (String.mk m) = some v) :
    extractStructuredFromReply blocks = v ∧
    (∀ kvs, v = Json.obj kvs →
      jsonKeys (extractStructuredFromReply blocks) = kvs.map Prod.fst) ∧
    (∀ env (model : List ContentBlock → List ReplyBlock) p fields r,
      fetchFileAsBase64 env p = Except.ok r →
      model (structuredModeContent r fields) = blocks →
      extractStructuredData env model p fields = Except.ok v) := by
  have hmain : extractStructuredFromReply blocks = v := by
    unfold extractStructuredFromReply
    rw [ht]
    show extractStructuredFromText t = v
    rw [extractStructuredFromText_eq, hm]
    show (match jsonParse (String.mk m) with
          | some parsed => parsed
          | none => Json.obj []) = v
    rw [hp]
  refine ⟨hmain, fun kvs hv => ?_, fun env model p fields r hf hmodel => ?_⟩
  · rw [hmain, hv]
    rfl
  · unfold extractStructuredData
    rw [hf]
    show Except.ok (extractStructuredFromReply (model (structuredModeContent r fields)))
          = Except.ok v
    rw [hmodel, hmain]

/-- A reply whose JSON has a key outside any requested field list. -/
def replyW : String := "\x7b\"invoiceNumber\":\"INV-001\",\"extra\":\"x\"\x7d"

/-- The value `replyW`'s JSON parses to. -/
def vW : Json := Json.obj [("invoiceNumber", Json.str "INV-001"), ("extra", Json.str "x")]

/-- A fixed reply: one non-text block, then `replyW` as text. -/
def blocksW : List ReplyBlock := [ReplyBlock.other "thinking", ReplyBlock.text replyW]

/-- A model stub that always answers `blocksW`. -/
def modelW : List ContentBlock → List ReplyBlock := fun _ => blocksW

/-- Witness for C5: keys `invoiceNumber` and `extra` pass through although
`dueDate` was requested and `extra` was not. -/
theorem structured_pass_through_witness :
    extractStructuredFromReply blocksW = vW ∧
    extractStructuredData envPng modelW "photo.png" ["invoiceNumber", "dueDate"]
      = Except.ok vW :=
  ⟨(structured_pass_through blocksW replyW replyW.data vW rfl rfl rfl).1,
   (structured_pass_through blocksW replyW replyW.data vW rfl rfl rfl).2.2 envPng modelW
     "photo.png" ["invoiceNumber", "dueDate"] { data := "CQ==", mediaType := "image/png" }
     rfl rfl⟩

/-- C6: each request payload holds a document block exactly when the fetched
media type is `application/pdf`, an image block otherwise, and the block
carries exactly the fetched media type. -/
theorem payload_block_typing (r : Resource) (fields : List String) :
    ((r.mediaType = "application/pdf" →
      (textModeContent r).head? = some (ContentBlock.document r.mediaType r.data) ∧
      (structuredModeContent r fields).head?
        = some (ContentBlock.document r.mediaType r.data)) ∧
    (r.mediaType ≠ "application/pdf" →
      (textModeContent r).head? = some (ContentBlock.image r.mediaType r.data) ∧
      (structuredModeContent r fields).head?
        = some (ContentBlock.image r.mediaType r.data))) ∧
    ((∃ mt d, ContentBlock.document mt d ∈ textModeContent r)
      ↔ r.mediaType = "application/pdf") ∧
    ((∃ mt d, ContentBlock.document mt d ∈ structuredModeContent r fields)
      ↔ r.mediaType = "application/pdf") ∧
    (∀ b, b ∈ textModeContent r →
      blockMediaType b = none ∨ blockMediaType b = some r.mediaType) ∧
    (∀ b, b ∈ structuredModeContent r fields →
      blockMediaType b = none ∨ blockMediaType b = some r.mediaType) := by
  refine ⟨⟨fun h => ?_, fun h => ?_⟩, ?_, ?_, fun b hb => ?_, fun b hb => ?_⟩
  · simp [textModeContent, structuredModeContent, h]
  · simp [textModeContent, structuredModeContent, h]
  · by_cases h : r.mediaType = "application/pdf" <;> simp [textModeContent, h]
  · by_cases h : r.mediaType = "application/pdf" <;> simp [structuredModeContent, h]
  · by_cases h : r.mediaType = "application/pdf" <;>
      simp [textModeContent, h] at hb <;>
      rcases hb with rfl | rfl <;> simp [blockMediaType, h]
  · by_cases h : r.mediaType = "application/pdf" <;>
      simp [structuredModeContent, h] at hb <;>
      rcases hb with rfl | rfl <;> simp [blockMediaType, h]

/-- A PDF resource and a JPEG resource. -/
def rPdf : Resource := { data := "AQID", mediaType := "application/pdf" }

def rJpg : Resource := { data := "xyz", mediaType := "image/jpeg" }

/-- Witness for C6 at a PDF and a non-PDF resource. -/
theorem payload_block_typing_witness :
    (textModeContent rPdf).head? = some (ContentBlock.document "application/pdf" "AQID") ∧
    (textModeContent rJpg).head? = some (ContentBlock.image "image/jpeg" "xyz") :=
  ⟨((payload_block_typing rPdf []).1.1 rfl).1,
   ((payload_block_typing rJpg []).1.2 (by decide)).1⟩

/-- A remote world whose one response has a present-but-empty
`Content-Type` header. -/
def envEmptyCT : Env :=
  { file := fun _ => none,
    http := fun u =>
      if u = "https://x.example/a" then some { contentType := some "", body := [] }
      else none }

/-- C7 counterexample: with a present-but-empty `Content-Type` header the
code reports `image/jpeg` (the JS `||` treats `""` as absent), not the
truncated header value `""` the claim prescribes for present headers. -/
theorem remote_mediaType_counterexample :
    envEmptyCT.file "https://x.example/a" = none ∧
    envEmptyCT.http "https://x.example/a" = some { contentType := some "", body := [] } ∧
    (fetchFileAsBase64 envEmptyCT "https://x.example/a").toOption.map Resource.mediaType
      = some "image/jpeg" ∧
    specRemoteMediaType (some "") = "" ∧
    (fetchFileAsBase64 envEmptyCT "https://x.example/a").toOption.map Resource.mediaType
      ≠ some (specRemoteMediaType (some "")) := by
  exact ⟨rfl, rfl, rfl, rfl, by decide⟩

/-- C7 amended: the remote media type is the `Content-Type` header truncated
at the first `;`; an absent or empty header yields `image/jpeg`. -/
theorem remote_mediaType (env : Env) (p : String) (resp : HttpResponse)
    (hf : env.file p = none) (hh : env.http p = some resp) :
    (fetchFileAsBase64 env p).toOption.map Resource.mediaType =
      some (match resp.contentType with
            | some s => if s = "" then "image/jpeg" else specRemoteMediaType (some s)
            | none => "image/jpeg") := by
  unfold fetchFileAsBase64
  rw [hf, hh]
  show some (String.mk ((jsSplit ';' ((match resp.contentType with
          | some s => if s = "" then "image/jpeg" else s
          | none => "image/jpeg") : String).data).headD []))
      = some (match resp.contentType with
              | some s => if s = "" then "image/jpeg" else specRemoteMediaType (some s)
              | none => "image/jpeg")
  cases resp.contentType with
  | none => rfl
  | some s =>
    by_cases hs : s = ""
    · subst hs
      rfl
    · simp only [if_neg hs]
      rw [jsSplit_headD]
      rfl

/-- A remote world answering with a parameterised `Content-Type`. -/
def envHtml : Env :=
  { file := fun _ => none,
    http := fun u =>
      if u = "https://x.example/p"
      then some { contentType := some "text/html; charset=utf-8", body := [72] }
      else none }

/-- Witness for C7's amended statement: `text/html; charset=utf-8` is
reported as `text/html`. -/
theorem remote_mediaType_witness :
    (fetchFileAsBase64 envHtml "https://x.example/p").toOption.map Resource.mediaType
      = some (match (some "text/html; charset=utf-8" : Option String) with
              | some s => if s = "" then "image/jpeg" else specRemoteMediaType (some s)
              | none => "image/jpeg") ∧
    specRemoteMediaType (some "text/html; charset=utf-8") = "text/html" :=
  ⟨remote_mediaType envHtml "https://x.example/p"
     { contentType := some "text/html; charset=utf-8", body := [72] } rfl rfl,
   rfl⟩

/-- The known field names of the description table. -/
def knownFieldNames : List String := descriptions.map Prod.fst

/-- C8 counterexample: `toString` is not in the table, yet the property
read finds the truthy member inherited from `Object.prototype`, so the
lookup does not return the field name unchanged. -/
theorem describeField_counterexample :
    "toString" ∉ knownFieldNames ∧
    describeField "toString" = FieldDesc.protoMember "toString" ∧
    describeField "toString" ≠ FieldDesc.strVal "toString" :=
  ⟨by decide, rfl, by decide⟩

/-- C8 amended: the lookup returns the fixed description for each of the
six known field names; any other field name is returned unchanged unless
it is a member name inherited from `Object.prototype` (`toString`,
`constructor`, ...), where the JS property read finds the truthy inherited
member and returns that instead of the name; no error is raised in any
case. -/
theorem describeField_amended :
    describeField "licensePlate"
      = FieldDesc.strVal "License plate number or vehicle registration" ∧
    describeField "invoiceNumber" = FieldDesc.strVal "Invoice number or ID" ∧
    describeField "amountDue" = FieldDesc.strVal "Amount due (total amount to pay)" ∧
    describeField "dueDate" = FieldDesc.strVal "Due date for payment" ∧
    describeField "company" = FieldDesc.strVal "Company or organization name" ∧
    describeField "address" = FieldDesc.strVal "Address" ∧
    describeField "vin" = FieldDesc.strVal "vin" ∧
    (∀ f, f ∉ knownFieldNames → f ∉ objectPrototypeMembers →
      describeField f = FieldDesc.strVal f) ∧
    (∀ f, f ∈ objectPrototypeMembers → describeField f = FieldDesc.protoMember f) := by
  refine ⟨rfl, rfl, rfl, rfl, rfl, rfl, rfl, fun f hf hp => ?_, fun f hf => ?_⟩
  · simp only [knownFieldNames, descriptions, List.map_cons, List.map_nil,
      List.mem_cons, List.not_mem_nil, or_false, not_or] at hf
    obtain ⟨n1, n2, n3, n4, n5, n6⟩ := hf
    have b1 : (f == "invoiceNumber") = false := beq_eq_false_iff_ne.mpr n1
    have b2 : (f == "licensePlate") = false := beq_eq_false_iff_ne.mpr n2
    have b3 : (f == "amountDue") = false := beq_eq_false_iff_ne.mpr n3
    have b4 : (f == "dueDate") = false := beq_eq_false_iff_ne.mpr n4
    have b5 : (f == "company") = false := beq_eq_false_iff_ne.mpr n5
    have b6 : (f == "address") = false := beq_eq_false_iff_ne.mpr n6
    simp [describeField, descriptions, List.lookup, b1, b2, b3, b4, b5, b6, hp]
  · simp only [objectPrototypeMembers, List.mem_cons, List.not_mem_nil, or_false] at hf
    rcases hf with rfl | rfl | rfl | rfl | rfl | rfl | rfl | rfl | rfl | rfl | rfl | rfl
      <;> rfl

/-- Witness for C8's amended statement: an unknown plain name passes
through unchanged, while `constructor` hits the prototype chain. -/
theorem describeField_amended_witness :
    describeField "customRef" = FieldDesc.strVal "customRef" ∧
    describeField "constructor" = FieldDesc.protoMember "constructor" :=
  ⟨describeField_amended.2.2.2.2.2.2.2.1 "customRef" (by decide) (by decide),
   describeField_amended.2.2.2.2.2.2.2.2 "constructor" (by decide)⟩

/-- C9: plain-text extraction returns the value of the first text-tagged
block, scanning in order, and `""` when no text block exists. -/
theorem extractText_first_text_block (blocks : List ReplyBlock) :
    extractTextFromReply blocks = (firstTextValue blocks).getD "" ∧
    (firstTextValue blocks = none → extractTextFromReply blocks = "") ∧
    (∀ t, firstTextValue blocks = some t → extractTextFromReply blocks = t) := by
  have hmain : extractTextFromReply blocks = (firstTextValue blocks).getD "" := by
    induction blocks with
    | nil => rfl
    | cons b bs ih =>
      cases b with
      | text t => rfl
      | other k => simpa [extractTextFromReply, firstTextValue, List.find?, blockIsText] using ih
  exact ⟨hmain, fun h => by rw [hmain, h]; rfl, fun t h => by rw [hmain, h]; rfl⟩

/-- Witness for C9: the first of two text blocks wins; no text block
yields `""`. -/
theorem extractText_first_text_block_witness :
    extractTextFromReply
      [ReplyBlock.other "tool_use", ReplyBlock.text "hello", ReplyBlock.text "bye"]
      = "hello" ∧
    extractTextFromReply [ReplyBlock.other "tool_use"] = "" :=
  ⟨(extractText_first_text_block
      [ReplyBlock.other "tool_use", ReplyBlock.text "hello", ReplyBlock.text "bye"]).2.2
      "hello" rfl,
   (extractText_first_text_block [ReplyBlock.other "tool_use"]).2.1 rfl⟩

/-- C10: surrounding whitespace never changes the structured recovery. -/
theorem structured_ws_invariant (s w1 w2 : String)
    (h1 : ∀ c ∈ w1.data, isJsWs c = true) (h2 : ∀ c ∈ w2.data, isJsWs c = true) :
    extractStructuredFromText (w1 ++ s ++ w2) = extractStructuredFromText s := by
  have htrim : jsTrim (w1 ++ s ++ w2) = jsTrim s := by
    unfold jsTrim
    rw [String.data_append, String.data_append]
    exact congrArg String.mk (trimChars_ws_invariant s.data w1.data w2.data h1 h2)
  rw [extractStructuredFromText_eq, extractStructuredFromText_eq, htrim]

/-- A bare JSON reply used by the C10 witness. -/
def sampleReply : String := "\x7b\"amountDue\":\"10\"\x7d"

/-- Witness for C10 with concrete whitespace on both sides. -/
theorem structured_ws_invariant_witness :
    extractStructuredFromText ("  \n" ++ sampleReply ++ "\t ")
      = extractStructuredFromText sampleReply :=
  structured_ws_invariant sampleReply "  \n" "\t " (by decide) (by decide)

end Toll
